import Mathlib

/-!
Verification of the detector-geometry core of `karabo_data/geometry2.py`.

Coordinates follow the source conventions:
* `GeometryFragment` stores lab-frame `(x, y, z)` positions/vectors in pixel
  units (rationals model the floating-point values symbolically).
* `GridGeometryFragment` stores `(y, x)` integer grid indexes produced by
  `GeometryFragment.snap`.
-/

/-- `np.around` for a single scalar: round half to even (banker's rounding). -/
def roundHalfEven (q : ℚ) : ℤ :=
  if q - (⌊q⌋ : ℚ) < 1/2 then ⌊q⌋
  else if (1/2 : ℚ) < q - (⌊q⌋ : ℚ) then ⌊q⌋ + 1
  else if ⌊q⌋ % 2 = 0 then ⌊q⌋ else ⌊q⌋ + 1

/-- `.astype(int)` on a float: truncation toward zero. -/
def truncToward0 (q : ℚ) : ℤ :=
  if q < 0 then -⌊-q⌋ else ⌊q⌋

/-- Componentwise sum of `(x, y, z)` triples. -/
def add3 (a b : ℚ × ℚ × ℚ) : ℚ × ℚ × ℚ :=
  (a.1 + b.1, a.2.1 + b.2.1, a.2.2 + b.2.2)

/-- Componentwise difference of `(x, y, z)` triples. -/
def sub3 (a b : ℚ × ℚ × ℚ) : ℚ × ℚ × ℚ :=
  (a.1 - b.1, a.2.1 - b.2.1, a.2.2 - b.2.2)

/-- Scalar multiple of an `(x, y, z)` triple. -/
def smul3 (c : ℚ) (v : ℚ × ℚ × ℚ) : ℚ × ℚ × ℚ :=
  (c * v.1, c * v.2.1, c * v.2.2)

/-- One tile of the detector, in lab-frame `(x, y, z)` pixel-unit
coordinates (`GeometryFragment.__init__`, geometry2.py lines 15-23). -/
structure GeometryFragment where
  corner_pos : ℚ × ℚ × ℚ
  ss_vec : ℚ × ℚ × ℚ
  fs_vec : ℚ × ℚ × ℚ
  ss_pixels : ℕ
  fs_pixels : ℕ
deriving DecidableEq, Repr

namespace GeometryFragment

/-- The four lab-frame corner points, in the source's winding order
(`GeometryFragment.corners`, lines 34-40). -/
def corners (f : GeometryFragment) : List (ℚ × ℚ × ℚ) :=
  [f.corner_pos,
   add3 f.corner_pos (smul3 (f.fs_pixels : ℚ) f.fs_vec),
   add3 f.corner_pos (add3 (smul3 (f.ss_pixels : ℚ) f.ss_vec)
                           (smul3 (f.fs_pixels : ℚ) f.fs_vec)),
   add3 f.corner_pos (smul3 (f.ss_pixels : ℚ) f.ss_vec)]

end GeometryFragment

/-- The grid placement data of one snapped tile, `(y, x)` index convention.
Mirrors the arguments of `GridGeometryFragment.__init__` (lines 67-73); the
quantities the constructor derives from them are the definitions below. -/
structure GridGeometryFragment where
  corner_yx : ℤ × ℤ
  ss_vec : ℤ × ℤ
  fs_vec : ℤ × ℤ
  ss_pixels : ℕ
  fs_pixels : ℕ
deriving DecidableEq, Repr

namespace GridGeometryFragment

/-- Whether the data block needs a transpose: the `else` branch of
`if fs_vec[0] == 0` (line 75). -/
def transposed (g : GridGeometryFragment) : Bool :=
  if g.fs_vec.1 = 0 then false else true

/-- `ss_order` (flip step along the slow-scan data axis), lines 78 / 88. -/
def ss_order (g : GridGeometryFragment) : ℤ :=
  if g.fs_vec.1 = 0 then g.ss_vec.1 else g.ss_vec.2

/-- `fs_order` (flip step along the fast-scan data axis), lines 77 / 87. -/
def fs_order (g : GridGeometryFragment) : ℤ :=
  if g.fs_vec.1 = 0 then g.fs_vec.2 else g.fs_vec.1

/-- `pixel_dims`: the output block shape, lines 84 / 94. -/
def pixel_dims (g : GridGeometryFragment) : ℕ × ℕ :=
  if g.fs_vec.1 = 0 then (g.ss_pixels, g.fs_pixels) else (g.fs_pixels, g.ss_pixels)

/-- `corner_shift`, lines 80-83 / 90-93. -/
def corner_shift (g : GridGeometryFragment) : ℤ × ℤ :=
  if g.fs_vec.1 = 0 then
    (min g.ss_vec.1 0 * (g.ss_pixels : ℤ), min g.fs_vec.2 0 * (g.fs_pixels : ℤ))
  else
    (min g.fs_vec.1 0 * (g.fs_pixels : ℤ), min g.ss_vec.2 0 * (g.ss_pixels : ℤ))

/-- `corner_idx = corner_pos + corner_shift` (line 95). -/
def corner_idx (g : GridGeometryFragment) : ℤ × ℤ :=
  (g.corner_yx.1 + g.corner_shift.1, g.corner_yx.2 + g.corner_shift.2)

/-- `opp_corner_idx = corner_idx + pixel_dims` (line 96). -/
def opp_corner_idx (g : GridGeometryFragment) : ℤ × ℤ :=
  (g.corner_idx.1 + (g.pixel_dims.1 : ℤ), g.corner_idx.2 + (g.pixel_dims.2 : ℤ))

/-- Flip sign acting on the output row axis: `ss_order` without transpose,
`fs_order` with transpose (the first slice in lines 79 / 89). -/
def row_order (g : GridGeometryFragment) : ℤ :=
  if g.transposed then g.fs_order else g.ss_order

/-- Flip sign acting on the output column axis. -/
def col_order (g : GridGeometryFragment) : ℤ :=
  if g.transposed then g.ss_order else g.fs_order

/-- Semantics of a `::step` slice with `step = ±1` on an axis of length `n`. -/
def flipIndex (order : ℤ) (n i : ℕ) : ℕ :=
  if order < 0 then n - 1 - i else i

/-- Semantics of the stored `transform` closure (lines 79 / 89): the value of
the transformed block at output position `(r, c)`, reading from the raw tile
block (indexed slow-scan row then fast-scan column). -/
def transform {α : Type} (g : GridGeometryFragment) (tile : ℕ → ℕ → α)
    (r c : ℕ) : α :=
  if g.fs_vec.1 = 0 then
    tile (flipIndex g.ss_order g.ss_pixels r) (flipIndex g.fs_order g.fs_pixels c)
  else
    tile (flipIndex g.ss_order g.ss_pixels c) (flipIndex g.fs_order g.fs_pixels r)

end GridGeometryFragment

/-- `GeometryFragment.snap` (lines 57-64): round the in-plane components,
check the axis-alignment set equation from the source's `assert` (failure of
the assertion is modelled as `none`), and swap `(x, y)` to `(y, x)`. -/
def GeometryFragment.snap (f : GeometryFragment) : Option GridGeometryFragment :=
  let cx := roundHalfEven f.corner_pos.1
  let cy := roundHalfEven f.corner_pos.2.1
  let sx := roundHalfEven f.ss_vec.1
  let sy := roundHalfEven f.ss_vec.2.1
  let fx := roundHalfEven f.fs_vec.1
  let fy := roundHalfEven f.fs_vec.2.1
  if ({(|sx|, |sy|), (|fx|, |fy|)} : Finset (ℤ × ℤ)) = {(0, 1), (1, 0)} then
    some ⟨(cy, cx), (sy, sx), (fy, fx), f.ss_pixels, f.fs_pixels⟩
  else none

/-- Componentwise `min` on `(y, x)` integer pairs. -/
def vmin (a b : ℤ × ℤ) : ℤ × ℤ := (min a.1 b.1, min a.2 b.2)

/-- Componentwise `max` on `(y, x)` integer pairs. -/
def vmax (a b : ℤ × ℤ) : ℤ × ℤ := (max a.1 b.1, max a.2 b.2)

/-- `corners.min(axis=0)` over a stacked list; `none` models the numpy error
on an empty stack. -/
def foldMin : List (ℤ × ℤ) → Option (ℤ × ℤ)
  | [] => none
  | h :: t => some (t.foldl vmin h)

/-- `corners.max(axis=0)` over a stacked list. -/
def foldMax : List (ℤ × ℤ) → Option (ℤ × ℤ)
  | [] => none
  | h :: t => some (t.foldl vmax h)

/-- All tiles of a snapped geometry, in iteration order (module major). -/
def allTiles (modules : List (List GridGeometryFragment)) :
    List GridGeometryFragment :=
  modules.flatten

/-- The stacked corner list of `SnappedGeometry._get_dimensions`
(lines 572-577): each tile contributes `corner_idx` then `opp_corner_idx`. -/
def cornersYX (modules : List (List GridGeometryFragment)) : List (ℤ × ℤ) :=
  (allTiles modules).flatMap
    (fun t => [t.corner_idx, t.opp_corner_idx])

/-- `SnappedGeometry._get_dimensions` (lines 567-585):
returns `((size_y, size_x), (centre_y, centre_x))`. -/
def get_dimensions (modules : List (List GridGeometryFragment)) :
    Option ((ℤ × ℤ) × (ℤ × ℤ)) :=
  match foldMin (cornersYX modules), foldMax (cornersYX modules) with
  | some mn, some mx => some ((mx.1 - mn.1, mx.2 - mn.2), (-mn.1, -mn.2))
  | _, _ => none

/-- A dense numpy array: a shape together with the value at each index list.
Values at out-of-range indexes are irrelevant junk. -/
structure NdArr (α : Type) where
  shape : List ℕ
  val : List ℕ → α

/-- `shape[-3:]`. For fewer than 3 axes this is the whole shape, which can
never equal a 3-element expected shape, matching numpy. -/
def trailing3 (shape : List ℕ) : List ℕ :=
  shape.drop (shape.length - 3)

/-- The detector-specific data a `SnappedGeometry` reads from its owning
`DetectorGeometryBase` (lines 101-105, 129-135): the declared raw data shape
and the per-module tile-splitting rule, given as the function from a raw
module block to the list of per-tile blocks. -/
structure Detector where
  expected_data_shape : List ℕ
  split_tiles : (ℕ → ℕ → ℚ) → List (ℕ → ℕ → ℚ)

/-- AGIPD-1M: raw shape (16, 512, 128); `split_tiles` splits a module into
8 tiles along the slow-scan axis (lines 188-191, 452-455), 64 rows each for
the declared 512-row module. -/
def agipdDetector : Detector where
  expected_data_shape := [16, 512, 128]
  split_tiles := fun md => (List.range 8).map (fun k s f => md (64 * k + s) f)

/-- `SnappedGeometry.__init__` (lines 545-547). -/
structure SnappedGeometry where
  modules : List (List GridGeometryFragment)
  det : Detector

/-- One tile placement into the canvas (the body of the inner loop of
`SnappedGeometry.position_modules`, lines 558-563): inside the rectangle
`[corner_idx + centre, opp_corner_idx + centre)` the canvas holds the
transformed tile block, elsewhere whatever was there before. -/
def placeTile (t : GridGeometryFragment) (centre : ℤ × ℤ)
    (tileData : List ℕ → ℕ → ℕ → ℚ)
    (acc : List ℕ → ℕ → ℕ → Option ℚ) : List ℕ → ℕ → ℕ → Option ℚ :=
  fun b r c =>
    let y := t.corner_idx.1 + centre.1
    let x := t.corner_idx.2 + centre.2
    if y ≤ (r : ℤ) ∧ (r : ℤ) < y + (t.pixel_dims.1 : ℤ) ∧
       x ≤ (c : ℤ) ∧ (c : ℤ) < x + (t.pixel_dims.2 : ℤ) then
      some (t.transform (tileData b) ((r : ℤ) - y).toNat ((c : ℤ) - x).toNat)
    else acc b r c

/-- The canvas contents after the two nested placement loops of
`position_modules` (lines 555-563), starting from the all-`nan` canvas
(modelled as `none`). `b` is the list of leading batch indexes. -/
def placeAll (g : SnappedGeometry) (data : NdArr ℚ) (centre : ℤ × ℤ) :
    List ℕ → ℕ → ℕ → Option ℚ :=
  g.modules.enum.foldl
    (fun acc (im : ℕ × List GridGeometryFragment) =>
      im.2.enum.foldl
        (fun acc2 (jt : ℕ × GridGeometryFragment) =>
          placeTile jt.2 centre
            (fun b => (g.det.split_tiles
                (fun s f => data.val (b ++ [im.1, s, f]))).getD jt.1
              (fun _ _ => 0))
            acc2)
        acc)
    (fun _ _ _ => none)

/-- `SnappedGeometry.position_modules` (lines 549-565). The shape assertion
is modelled as `none`; `none` also results from `_get_dimensions` on an
empty geometry (a numpy error in the source). On success the output array
has the batch shape followed by the canvas shape, and pairs with the centre
offset. -/
def position_modules (g : SnappedGeometry) (data : NdArr ℚ) :
    Option (NdArr (Option ℚ) × (ℤ × ℤ)) :=
  if trailing3 data.shape = g.det.expected_data_shape then
    match get_dimensions g.modules with
    | some sc =>
      let nb := data.shape.length - 3
      some ({ shape := data.shape.take nb ++ [sc.1.1.toNat, sc.1.2.toNat],
              val := fun idx =>
                placeAll g data sc.2 (idx.take nb)
                  (idx.getD nb 0) (idx.getD (nb + 1) 0) },
            sc.2)
    | none => none
  else none

/-- `DetectorGeometryBase.__init__` plus the snapped-layout cache field
(lines 107-112). -/
structure DetectorGeometry where
  modules : List (List GeometryFragment)
  det : Detector
  snapped_cache : Option (List (List GridGeometryFragment))

/-- A fresh geometry as built by `__init__`: the cache starts empty. -/
def DetectorGeometry.mkFresh (modules : List (List GeometryFragment))
    (det : Detector) : DetectorGeometry :=
  ⟨modules, det, none⟩

/-- Snapping every tile of every module (`_snapped`'s loop, lines 122-125);
`none` if any tile's `snap` fails. -/
def traverseSnap (modules : List (List GeometryFragment)) :
    Option (List (List GridGeometryFragment)) :=
  modules.mapM (fun m => m.mapM GeometryFragment.snap)

/-- `DetectorGeometryBase._snapped` (lines 114-127): return the cached
snapped geometry, computing and storing it on first use. Returns the
snapped modules (or `none` on snap failure) with the updated object state. -/
def DetectorGeometry.snapped (g : DetectorGeometry) :
    Option (List (List GridGeometryFragment)) × DetectorGeometry :=
  match g.snapped_cache with
  | some s => (some s, g)
  | none =>
    match traverseSnap g.modules with
    | some s => (some s, { g with snapped_cache := some s })
    | none => (none, g)

/-- `DetectorGeometryBase.position_modules_fast` (lines 137-158):
delegate to the (lazily cached) snapped geometry. -/
def position_modules_fast (g : DetectorGeometry) (data : NdArr ℚ) :
    Option (NdArr (Option ℚ) × (ℤ × ℤ)) × DetectorGeometry :=
  match g.snapped with
  | (some s, g') => (position_modules ⟨s, g'.det⟩ data, g')
  | (none, g') => (none, g')

/-- `AGIPD_1MGeometry.frag_ss_pixels` (line 189). -/
def agipd_frag_ss_pixels : ℕ := 64

/-- `AGIPD_1MGeometry.frag_fs_pixels` (line 190). -/
def agipd_frag_fs_pixels : ℕ := 128

/-- `quads_x_orientation` (line 204). -/
def quadsXOrient : List ℤ := [1, 1, -1, -1]

/-- `quads_y_orientation` (line 205). -/
def quadsYOrient : List ℤ := [-1, -1, 1, 1]

/-- `AGIPD_1MGeometry.from_quad_positions` (lines 193-227). `quad_pos` is
the quadrant reference position lookup (the source indexes a 4-element
sequence; only indexes 0-3 are used). -/
def from_quad_positions (quad_pos : ℕ → ℚ × ℚ)
    (asic_gap panel_gap : ℚ) : List (List GeometryFragment) :=
  (List.range 16).map (fun p =>
    let quad := p / 4
    let qc := quad_pos quad
    let xo : ℤ := quadsXOrient.getD quad 0
    let yo : ℤ := quadsYOrient.getD quad 0
    let corner_y : ℚ := qc.2 - (p % 4 : ℕ) * (128 + panel_gap)
    (List.range 8).map (fun a =>
      { corner_pos := (qc.1 + (xo : ℚ) * (64 + asic_gap) * (a : ℕ), corner_y, 0),
        ss_vec := ((xo : ℚ), 0, 0),
        fs_vec := (0, (yo : ℚ), 0),
        ss_pixels := agipd_frag_ss_pixels,
        fs_pixels := agipd_frag_fs_pixels }))

/-- Tile lookup `modules[p][a]`. -/
def tileAt (modules : List (List GeometryFragment)) (p a : ℕ) :
    Option GeometryFragment :=
  (modules.get? p).bind (fun m => m.get? a)

/-- Componentwise `min` on `(x, y)` rational pairs. -/
def qmin (a b : ℚ × ℚ) : ℚ × ℚ := (min a.1 b.1, min a.2 b.2)

/-- Componentwise `max` on `(x, y)` rational pairs. -/
def qmax (a b : ℚ × ℚ) : ℚ × ℚ := (max a.1 b.1, max a.2 b.2)

/-- The in-plane `(x, y)` projections of every tile corner of the precise
geometry, in iteration order (`AGIPD_1MGeometry._get_dimensions`,
lines 437-441). -/
def preciseCorners (modules : List (List GeometryFragment)) : List (ℚ × ℚ) :=
  (modules.flatten).flatMap (fun t => t.corners.map (fun c => (c.1, c.2.1)))

/-- `AGIPD_1MGeometry._get_dimensions` (lines 432-450): truncate the
extremes toward zero with a 1-pixel margin, and switch `(x, y)` to `(y, x)`.
Returns `((size_y, size_x), (centre_y, centre_x))`; `none` models the numpy
error on an empty geometry. -/
def agipd_get_dimensions (modules : List (List GeometryFragment)) :
    Option ((ℤ × ℤ) × (ℤ × ℤ)) :=
  match preciseCorners modules with
  | [] => none
  | h :: t =>
    let mn := t.foldl qmin h
    let mx := t.foldl qmax h
    let min_x := truncToward0 mn.1 - 1
    let min_y := truncToward0 mn.2 - 1
    let max_x := truncToward0 mx.1 + 1
    let max_y := truncToward0 mx.2 + 1
    some ((max_y - min_y, max_x - min_x), (-min_y, -min_x))

/-- `AGIPD_1MGeometry.position_modules_interpolate` (lines 377-430),
modelled at the interface level: the source asserts
`data.shape == (16, 512, 128)` (no leading batch axes), allocates the
canvas from `_get_dimensions`, and returns the 2D assembled array and the
centre. The per-pixel contents (scipy `affine_transform` spline resampling
combined by `nanmax`) are floating-point interpolation and are not modelled;
this definition captures the acceptance condition, output shape and centre
offset, which is what the interface claims concern. -/
def position_modules_interpolate (modules : List (List GeometryFragment))
    (data : NdArr ℚ) : Option (List ℕ × (ℤ × ℤ)) :=
  if data.shape = [16, 512, 128] then
    match agipd_get_dimensions modules with
    | some sc => some ([sc.1.1.toNat, sc.1.2.toNat], sc.2)
    | none => none
  else none

/-- `corner_ss_offsets = [-.5, .5, .5, -.5]` (line 474); the catch-all
branch is index 3. -/
def cornerSSOffsets (k : Fin 4) : ℚ :=
  match k.val with
  | 0 => -(1/2)
  | 1 => 1/2
  | 2 => 1/2
  | _ => -(1/2)

/-- `corner_fs_offsets = [-.5, -.5, .5, .5]` (line 475); the catch-all
branch is index 3. -/
def cornerFSOffsets (k : Fin 4) : ℚ :=
  match k.val with
  | 0 => -(1/2)
  | 1 => -(1/2)
  | 2 => 1/2
  | _ => 1/2

/-- The `(x, y, z)` lab-frame coordinates (physical units) of corner `k` of
pixel `(ss, fs)` of one tile: the vectorized computation of
`to_distortion_array`'s loop body (lines 482-520). -/
def tilePixelCorner (tile : GeometryFragment) (pixel_size : ℚ)
    (ss fs : ℕ) (k : Fin 4) : ℚ × ℚ × ℚ :=
  let c := smul3 pixel_size tile.corner_pos
  let su := smul3 pixel_size tile.ss_vec
  let fu := smul3 pixel_size tile.fs_vec
  (c.1 + (ss : ℚ) * su.1 + (fs : ℚ) * fu.1
     + cornerSSOffsets k * su.1 + cornerFSOffsets k * fu.1,
   c.2.1 + (ss : ℚ) * su.2.1 + (fs : ℚ) * fu.2.1
     + cornerSSOffsets k * su.2.1 + cornerFSOffsets k * fu.2.1,
   c.2.2 + (ss : ℚ) * su.2.2 + (fs : ℚ) * fu.2.2
     + cornerSSOffsets k * su.2.2 + cornerFSOffsets k * fu.2.2)

/-- The distortion array of `AGIPD_1MGeometry.to_distortion_array`
(lines 457-529) before the final global min-shift of the in-plane
coordinates (lines 531-533): entry `(row, fs, k)` holds the `(z, y, x)`
coordinates written by module `row / 512`, tile `(row % 512) / 64`
at slow-scan pixel `row % 64` (zero where no tile writes). -/
def distortion_before_shift (modules : List (List GeometryFragment))
    (pixel_size : ℚ) (row fs : ℕ) (k : Fin 4) : ℚ × ℚ × ℚ :=
  match (modules.get? (row / 512)).bind (fun m => m.get? (row % 512 / 64)) with
  | some tile =>
    if row % 64 < tile.ss_pixels then
      let c := tilePixelCorner tile pixel_size (row % 64) fs k
      (c.2.2, c.2.1, c.1)
    else (0, 0, 0)
  | none => (0, 0, 0)

/-- In-plane bounding box of the unsnapped corner polygon:
`((min_x, min_y), (max_x, max_y))`, the elementwise extremes of the four
corners of `GeometryFragment.corners`. -/
def polyBBox (f : GeometryFragment) : (ℚ × ℚ) × (ℚ × ℚ) :=
  match f.corners.map (fun c => (c.1, c.2.1)) with
  | p :: rest => (rest.foldl qmin p, rest.foldl qmax p)
  | [] => ((0, 0), (0, 0))

/-- A minimal one-tile detector used as a concrete instance: one module of
one identity-oriented 2×3 tile, declared raw shape `(1, 2, 3)`. -/
def sampleDet : Detector := ⟨[1, 2, 3], fun md => [md]⟩

/-- The one tile of the sample detector. -/
def sampleGrid : GridGeometryFragment := ⟨(0, 0), (1, 0), (0, 1), 2, 3⟩

/-- The sample snapped geometry. -/
def sampleSnapped : SnappedGeometry := ⟨[[sampleGrid]], sampleDet⟩

/-- A zero-filled data array of the sample detector's raw shape. -/
def sampleData : NdArr ℚ := ⟨[1, 2, 3], fun _ => 0⟩

/-- The single-tile geometry of the distortion-builder scenario. -/
def singleTileGeom : List (List GeometryFragment) :=
  [[⟨(0, 0, 0), (1, 0, 0), (0, 1, 0), 64, 128⟩]]

/-- An AGIPD geometry generated from all-zero quadrant positions with the
gap constants of the concrete layout scenario. -/
def qgeomZero : List (List GeometryFragment) :=
  from_quad_positions (fun _ => (0, 0)) 2 29

/-- A unit-slow-scan-vector fragment that snaps successfully but is far
from axis-aligned: `ss_vec = (0, -3/5, 4/5)`. -/
def bboxFrag : GeometryFragment := ⟨(0, 0, 0), (0, -3/5, 4/5), (1, 0, 0), 64, 128⟩

/-- The snapped form of `bboxFrag`. -/
def bboxFragSnapped : GridGeometryFragment := ⟨(0, 0), (-1, 0), (0, 1), 64, 128⟩

/-- An exactly axis-aligned fragment with fractional corner position. -/
def sampleFragQ : GeometryFragment := ⟨(1/4, -1/3, 0), (1, 0, 0), (0, 1, 0), 2, 3⟩

/-- The snapped form of `sampleFragQ`. -/
def sampleFragSnapped : GridGeometryFragment := ⟨(0, 0), (0, 1), (1, 0), 2, 3⟩

/-- Spec-side description: the elementwise minimum of all tiles'
`corner_idx`. -/
def minCorner (modules : List (List GridGeometryFragment)) : Option (ℤ × ℤ) :=
  foldMin ((allTiles modules).map GridGeometryFragment.corner_idx)

/-- Spec-side description: the elementwise maximum of all tiles'
`opp_corner_idx`. -/
def maxOpp (modules : List (List GridGeometryFragment)) : Option (ℤ × ℤ) :=
  foldMax ((allTiles modules).map GridGeometryFragment.opp_corner_idx)

/-- The corners of the placed (snapped) block in `(y, x)` grid coordinates:
the snapped corner plus the integer spans along each readout axis. -/
def gridCornersYX (g : GridGeometryFragment) : List (ℤ × ℤ) :=
  [g.corner_yx,
   (g.corner_yx.1 + (g.fs_pixels : ℤ) * g.fs_vec.1,
    g.corner_yx.2 + (g.fs_pixels : ℤ) * g.fs_vec.2),
   (g.corner_yx.1 + (g.ss_pixels : ℤ) * g.ss_vec.1 + (g.fs_pixels : ℤ) * g.fs_vec.1,
    g.corner_yx.2 + (g.ss_pixels : ℤ) * g.ss_vec.2 + (g.fs_pixels : ℤ) * g.fs_vec.2),
   (g.corner_yx.1 + (g.ss_pixels : ℤ) * g.ss_vec.1,
    g.corner_yx.2 + (g.ss_pixels : ℤ) * g.ss_vec.2)]

/-- The claim's hypothesis: the rounded in-plane vectors form a valid axis
permutation (their absolute values are the two canonical unit vectors). -/
def axisPerm (u v : ℤ × ℤ) : Prop :=
  ((|u.1|, |u.2|) = ((1 : ℤ), (0 : ℤ)) ∧ (|v.1|, |v.2|) = ((0 : ℤ), (1 : ℤ))) ∨
  ((|u.1|, |u.2|) = ((0 : ℤ), (1 : ℤ)) ∧ (|v.1|, |v.2|) = ((1 : ℤ), (0 : ℤ)))

instance (u v : ℤ × ℤ) : Decidable (axisPerm u v) := by
  unfold axisPerm; infer_instance

/-! ### Helper lemmas -/

theorem roundHalfEven_sub_le (q : ℚ) :
    (roundHalfEven q : ℚ) - q ≤ 1/2 ∧ -(1/2) ≤ (roundHalfEven q : ℚ) - q := by
  have h0 : (⌊q⌋ : ℚ) ≤ q := Int.floor_le q
  have h1 : q < (⌊q⌋ : ℚ) + 1 := Int.lt_floor_add_one q
  unfold roundHalfEven
  split_ifs <;> constructor <;> push_cast <;> linarith

theorem abs_roundHalfEven_sub (q : ℚ) : |(roundHalfEven q : ℚ) - q| ≤ 1/2 :=
  abs_le.mpr ⟨(roundHalfEven_sub_le q).2, (roundHalfEven_sub_le q).1⟩

theorem pair_finset_eq_axis_iff (a b : ℤ × ℤ) :
    ({a, b} : Finset (ℤ × ℤ)) = {(0, 1), (1, 0)} ↔
      (a = (0, 1) ∧ b = (1, 0)) ∨ (a = (1, 0) ∧ b = (0, 1)) := by
  constructor
  · intro h
    have ha : a ∈ ({(0, 1), (1, 0)} : Finset (ℤ × ℤ)) := by
      rw [← h]; exact Finset.mem_insert_self a {b}
    have hb : b ∈ ({(0, 1), (1, 0)} : Finset (ℤ × ℤ)) := by
      rw [← h]; exact Finset.mem_insert_of_mem (Finset.mem_singleton_self b)
    have h10 : ((1, 0) : ℤ × ℤ) ∈ ({a, b} : Finset (ℤ × ℤ)) := by
      rw [h]; exact Finset.mem_insert_of_mem (Finset.mem_singleton_self _)
    have h01 : ((0, 1) : ℤ × ℤ) ∈ ({a, b} : Finset (ℤ × ℤ)) := by
      rw [h]; exact Finset.mem_insert_self _ _
    simp only [Finset.mem_insert, Finset.mem_singleton] at ha hb h10 h01
    rcases ha with rfl | rfl <;> rcases hb with rfl | rfl <;> simp_all
  · rintro (⟨rfl, rfl⟩ | ⟨rfl, rfl⟩)
    · rfl
    · exact Finset.pair_comm _ _

theorem vmin_absorb (a c o : ℤ × ℤ) (h1 : c.1 ≤ o.1) (h2 : c.2 ≤ o.2) :
    vmin (vmin a c) o = vmin a c := by
  simp only [vmin, Prod.mk.injEq]
  omega

theorem vmax_absorb (a c o : ℤ × ℤ) (h1 : c.1 ≤ o.1) (h2 : c.2 ≤ o.2) :
    vmax (vmax a c) o = vmax a o := by
  simp only [vmax, Prod.mk.injEq]
  omega

theorem foldl_vmin_interleave {β : Type} (c o : β → ℤ × ℤ)
    (h : ∀ t, (c t).1 ≤ (o t).1 ∧ (c t).2 ≤ (o t).2) :
    ∀ (ts : List β) (a : ℤ × ℤ),
      List.foldl vmin a (ts.flatMap (fun t => [c t, o t])) =
      List.foldl vmin a (ts.map c)
  | [], _ => rfl
  | t :: ts, a => by
    simp only [List.flatMap_cons, List.map_cons, List.foldl_cons,
      List.cons_append, List.nil_append, List.foldl_append]
    rw [show List.foldl vmin (vmin (vmin a (c t)) (o t)) (ts.flatMap fun t => [c t, o t]) =
         List.foldl vmin (vmin a (c t)) (ts.flatMap fun t => [c t, o t]) by
       rw [vmin_absorb _ _ _ (h t).1 (h t).2]]
    exact foldl_vmin_interleave c o h ts (vmin a (c t))

theorem foldl_vmax_interleave {β : Type} (c o : β → ℤ × ℤ)
    (h : ∀ t, (c t).1 ≤ (o t).1 ∧ (c t).2 ≤ (o t).2) :
    ∀ (ts : List β) (a : ℤ × ℤ),
      List.foldl vmax a (ts.flatMap (fun t => [c t, o t])) =
      List.foldl vmax a (ts.map o)
  | [], _ => rfl
  | t :: ts, a => by
    simp only [List.flatMap_cons, List.map_cons, List.foldl_cons,
      List.cons_append, List.nil_append, List.foldl_append]
    rw [show vmax (vmax a (c t)) (o t) = vmax a (o t) from
         vmax_absorb _ _ _ (h t).1 (h t).2]
    exact foldl_vmax_interleave c o h ts (vmax a (o t))

theorem foldl_vmin_le_init : ∀ (l : List (ℤ × ℤ)) (a : ℤ × ℤ),
    (l.foldl vmin a).1 ≤ a.1 ∧ (l.foldl vmin a).2 ≤ a.2
  | [], a => ⟨le_refl _, le_refl _⟩
  | x :: l, a => by
    have h := foldl_vmin_le_init l (vmin a x)
    simp only [List.foldl_cons] at h ⊢
    simp only [vmin] at h
    constructor <;> [exact le_trans h.1 (by omega); exact le_trans h.2 (by omega)]

theorem foldl_vmin_le_mem : ∀ (l : List (ℤ × ℤ)) (a x : ℤ × ℤ), x ∈ l →
    (l.foldl vmin a).1 ≤ x.1 ∧ (l.foldl vmin a).2 ≤ x.2
  | [], _, _, hx => absurd hx (List.not_mem_nil _)
  | y :: l, a, x, hx => by
    rcases List.mem_cons.mp hx with rfl | hmem
    · have h := foldl_vmin_le_init l (vmin a x)
      simp only [List.foldl_cons]
      simp only [vmin] at h
      constructor <;> [exact le_trans h.1 (by omega); exact le_trans h.2 (by omega)]
    · simpa only [List.foldl_cons] using foldl_vmin_le_mem l (vmin a y) x hmem

theorem foldl_vmax_ge_init : ∀ (l : List (ℤ × ℤ)) (a : ℤ × ℤ),
    a.1 ≤ (l.foldl vmax a).1 ∧ a.2 ≤ (l.foldl vmax a).2
  | [], a => ⟨le_refl _, le_refl _⟩
  | x :: l, a => by
    have h := foldl_vmax_ge_init l (vmax a x)
    simp only [List.foldl_cons] at h ⊢
    simp only [vmax] at h
    constructor <;> [exact le_trans (by omega) h.1; exact le_trans (by omega) h.2]

theorem foldl_vmax_ge_mem : ∀ (l : List (ℤ × ℤ)) (a x : ℤ × ℤ), x ∈ l →
    x.1 ≤ (l.foldl vmax a).1 ∧ x.2 ≤ (l.foldl vmax a).2
  | [], _, _, hx => absurd hx (List.not_mem_nil _)
  | y :: l, a, x, hx => by
    rcases List.mem_cons.mp hx with rfl | hmem
    · have h := foldl_vmax_ge_init l (vmax a x)
      simp only [List.foldl_cons]
      simp only [vmax] at h
      constructor <;> [exact le_trans (by omega) h.1; exact le_trans (by omega) h.2]
    · simpa only [List.foldl_cons] using foldl_vmax_ge_mem l (vmax a y) x hmem

theorem corner_le_opp (t : GridGeometryFragment) :
    t.corner_idx.1 ≤ t.opp_corner_idx.1 ∧ t.corner_idx.2 ≤ t.opp_corner_idx.2 := by
  simp only [GridGeometryFragment.opp_corner_idx]
  omega

theorem vmin_right_absorb (c o : ℤ × ℤ) (h1 : c.1 ≤ o.1) (h2 : c.2 ≤ o.2) :
    vmin c o = c := by
  simp only [vmin, Prod.ext_iff]
  omega

theorem vmax_right_absorb (c o : ℤ × ℤ) (h1 : c.1 ≤ o.1) (h2 : c.2 ≤ o.2) :
    vmax c o = o := by
  simp only [vmax, Prod.ext_iff]
  omega

/-- The central characterization of `_get_dimensions`: on a nonempty
geometry it is built from the elementwise minimum of the `corner_idx`es and
the elementwise maximum of the `opp_corner_idx`es. -/
theorem get_dimensions_char (modules : List (List GridGeometryFragment))
    (h : allTiles modules ≠ []) :
    ∃ mn mx, minCorner modules = some mn ∧ maxOpp modules = some mx ∧
      get_dimensions modules =
        some ((mx.1 - mn.1, mx.2 - mn.2), (-mn.1, -mn.2)) := by
  obtain ⟨t, ts, hts⟩ : ∃ t ts, allTiles modules = t :: ts := by
    cases hmod : allTiles modules with
    | nil => exact absurd hmod h
    | cons t ts => exact ⟨t, ts, rfl⟩
  have hcorners : cornersYX modules =
      t.corner_idx :: t.opp_corner_idx ::
        ts.flatMap (fun u => [u.corner_idx, u.opp_corner_idx]) := by
    simp [cornersYX, hts]
  have hle : ∀ u : GridGeometryFragment,
      u.corner_idx.1 ≤ u.opp_corner_idx.1 ∧
      u.corner_idx.2 ≤ u.opp_corner_idx.2 := corner_le_opp
  refine ⟨List.foldl vmin t.corner_idx
            (ts.map GridGeometryFragment.corner_idx),
          List.foldl vmax t.opp_corner_idx
            (ts.map GridGeometryFragment.opp_corner_idx), ?_, ?_, ?_⟩
  · simp [minCorner, hts, foldMin]
  · simp [maxOpp, hts, foldMax]
  · have hmin : foldMin (cornersYX modules) =
        some (List.foldl vmin t.corner_idx
          (ts.map GridGeometryFragment.corner_idx)) := by
      rw [hcorners]
      simp only [foldMin, List.foldl_cons]
      rw [vmin_right_absorb _ _ (hle t).1 (hle t).2,
          foldl_vmin_interleave _ _ hle]
    have hmax : foldMax (cornersYX modules) =
        some (List.foldl vmax t.opp_corner_idx
          (ts.map GridGeometryFragment.opp_corner_idx)) := by
      rw [hcorners]
      simp only [foldMax, List.foldl_cons]
      rw [vmax_right_absorb _ _ (hle t).1 (hle t).2,
          foldl_vmax_interleave _ _ hle]
    simp [get_dimensions, hmin, hmax]

theorem foldMin_le_mem (l : List (ℤ × ℤ)) (mn : ℤ × ℤ)
    (h : foldMin l = some mn) (x : ℤ × ℤ) (hx : x ∈ l) :
    mn.1 ≤ x.1 ∧ mn.2 ≤ x.2 := by
  cases l with
  | nil => exact absurd hx (List.not_mem_nil _)
  | cons y t =>
    simp only [foldMin, Option.some.injEq] at h
    subst h
    rcases List.mem_cons.mp hx with rfl | hmem
    · exact foldl_vmin_le_init t x
    · exact foldl_vmin_le_mem t y x hmem

theorem foldMax_ge_mem (l : List (ℤ × ℤ)) (mx : ℤ × ℤ)
    (h : foldMax l = some mx) (x : ℤ × ℤ) (hx : x ∈ l) :
    x.1 ≤ mx.1 ∧ x.2 ≤ mx.2 := by
  cases l with
  | nil => exact absurd hx (List.not_mem_nil _)
  | cons y t =>
    simp only [foldMax, Option.some.injEq] at h
    subst h
    rcases List.mem_cons.mp hx with rfl | hmem
    · exact foldl_vmax_ge_init t x
    · exact foldl_vmax_ge_mem t y x hmem

/-! ### Claim theorems -/

/-- C1: for every fragment whose rounded in-plane `ss_vec` and `fs_vec` form
a valid axis permutation, the grid placement descriptor satisfies the
derivation rule: if the fast-scan vector's row component is zero there is no
transpose, the block shape is `(ss_pixels, fs_pixels)`, the row flip sign is
`ss_vec`'s row component and the column flip sign is `fs_vec`'s column
component (otherwise the transposed variant); a negative flip sign shifts
`corner_idx` by the block's extent along that axis, making `corner_idx` the
elementwise minimum corner of the placed block; and
`opp_corner_idx = corner_idx + pixel_dims`. -/
theorem grid_placement_descriptor_correct (g : GridGeometryFragment)
    (H : axisPerm g.ss_vec g.fs_vec) :
    (g.fs_vec.1 = 0 →
       g.transposed = false ∧ g.pixel_dims = (g.ss_pixels, g.fs_pixels) ∧
       g.row_order = g.ss_vec.1 ∧ g.col_order = g.fs_vec.2) ∧
    (g.fs_vec.1 ≠ 0 →
       g.transposed = true ∧ g.pixel_dims = (g.fs_pixels, g.ss_pixels) ∧
       g.row_order = g.fs_vec.1 ∧ g.col_order = g.ss_vec.2) ∧
    g.corner_idx =
      (g.corner_yx.1 + (if g.row_order < 0 then -(g.pixel_dims.1 : ℤ) else 0),
       g.corner_yx.2 + (if g.col_order < 0 then -(g.pixel_dims.2 : ℤ) else 0)) ∧
    foldMin (gridCornersYX g) = some g.corner_idx ∧
    g.opp_corner_idx = (g.corner_idx.1 + (g.pixel_dims.1 : ℤ),
                        g.corner_idx.2 + (g.pixel_dims.2 : ℤ)) := by
  obtain ⟨⟨cy, cx⟩, ⟨u1, u2⟩, ⟨v1, v2⟩, sp, fp⟩ := g
  simp only [axisPerm, Prod.mk.injEq] at H
  rcases H with ⟨⟨hu1, hu2⟩, hv1, hv2⟩ | ⟨⟨hu1, hu2⟩, hv1, hv2⟩
  · obtain rfl := abs_eq_zero.mp hu2
    obtain rfl := abs_eq_zero.mp hv1
    rcases (abs_eq (by norm_num : (0:ℤ) ≤ 1)).mp hu1 with rfl | rfl <;>
      rcases (abs_eq (by norm_num : (0:ℤ) ≤ 1)).mp hv2 with rfl | rfl <;>
        refine ⟨fun _ => ?_, fun hne => absurd rfl hne, ?_, ?_, ?_⟩ <;>
          simp only [GridGeometryFragment.transposed, GridGeometryFragment.ss_order,
            GridGeometryFragment.fs_order, GridGeometryFragment.pixel_dims,
            GridGeometryFragment.corner_shift, GridGeometryFragment.corner_idx,
            GridGeometryFragment.opp_corner_idx, GridGeometryFragment.row_order,
            GridGeometryFragment.col_order, gridCornersYX, foldMin, vmin,
            List.foldl_cons, List.foldl_nil, Option.some.injEq, Prod.ext_iff,
            if_true, if_false] <;>
          norm_num
  · obtain rfl := abs_eq_zero.mp hu1
    obtain rfl := abs_eq_zero.mp hv2
    rcases (abs_eq (by norm_num : (0:ℤ) ≤ 1)).mp hu2 with rfl | rfl <;>
      rcases (abs_eq (by norm_num : (0:ℤ) ≤ 1)).mp hv1 with rfl | rfl <;>
        refine ⟨fun h0 => absurd h0 (by norm_num), fun _ => ?_, ?_, ?_, ?_⟩ <;>
          simp only [GridGeometryFragment.transposed, GridGeometryFragment.ss_order,
            GridGeometryFragment.fs_order, GridGeometryFragment.pixel_dims,
            GridGeometryFragment.corner_shift, GridGeometryFragment.corner_idx,
            GridGeometryFragment.opp_corner_idx, GridGeometryFragment.row_order,
            GridGeometryFragment.col_order, gridCornersYX, foldMin, vmin,
            List.foldl_cons, List.foldl_nil, Option.some.injEq, Prod.ext_iff,
            if_true, if_false] <;>
          norm_num

/-- Witness for C1 at the concrete snapped tile
`corner (5,7), ss_vec (0,-1), fs_vec (1,0), 64×128`. -/
theorem grid_placement_descriptor_correct_witness :
    axisPerm ((0 : ℤ), (-1 : ℤ)) ((1 : ℤ), (0 : ℤ)) ∧
    (let g : GridGeometryFragment := ⟨(5, 7), (0, -1), (1, 0), 64, 128⟩
     (g.fs_vec.1 = 0 →
        g.transposed = false ∧ g.pixel_dims = (g.ss_pixels, g.fs_pixels) ∧
        g.row_order = g.ss_vec.1 ∧ g.col_order = g.fs_vec.2) ∧
     (g.fs_vec.1 ≠ 0 →
        g.transposed = true ∧ g.pixel_dims = (g.fs_pixels, g.ss_pixels) ∧
        g.row_order = g.fs_vec.1 ∧ g.col_order = g.ss_vec.2) ∧
     g.corner_idx =
       (g.corner_yx.1 + (if g.row_order < 0 then -(g.pixel_dims.1 : ℤ) else 0),
        g.corner_yx.2 + (if g.col_order < 0 then -(g.pixel_dims.2 : ℤ) else 0)) ∧
     foldMin (gridCornersYX g) = some g.corner_idx ∧
     g.opp_corner_idx = (g.corner_idx.1 + (g.pixel_dims.1 : ℤ),
                         g.corner_idx.2 + (g.pixel_dims.2 : ℤ))) :=
  ⟨by decide,
   grid_placement_descriptor_correct ⟨(5, 7), (0, -1), (1, 0), 64, 128⟩ (by decide)⟩

/-- C2: for every snapped geometry with at least one tile, the canvas size
is the elementwise maximum of all `opp_corner_idx` minus the elementwise
minimum of all `corner_idx`, and the centre offset is the negated
elementwise minimum of the `corner_idx`es. (`get_dimensions` takes only the
geometry, so both are independent of pixel data.) -/
theorem canvas_size_and_centre (modules : List (List GridGeometryFragment))
    (h : allTiles modules ≠ []) :
    ∃ mn mx, minCorner modules = some mn ∧ maxOpp modules = some mx ∧
      get_dimensions modules =
        some ((mx.1 - mn.1, mx.2 - mn.2), (-mn.1, -mn.2)) :=
  get_dimensions_char modules h

/-- Witness for C2 on a one-tile geometry. -/
theorem canvas_size_and_centre_witness :
    allTiles [[(⟨(0, 0), (1, 0), (0, 1), 2, 3⟩ : GridGeometryFragment)]] ≠ [] ∧
    (∃ mn mx,
      minCorner [[(⟨(0, 0), (1, 0), (0, 1), 2, 3⟩ : GridGeometryFragment)]] = some mn ∧
      maxOpp [[(⟨(0, 0), (1, 0), (0, 1), 2, 3⟩ : GridGeometryFragment)]] = some mx ∧
      get_dimensions [[(⟨(0, 0), (1, 0), (0, 1), 2, 3⟩ : GridGeometryFragment)]] =
        some ((mx.1 - mn.1, mx.2 - mn.2), (-mn.1, -mn.2))) :=
  ⟨by decide, canvas_size_and_centre _ (by decide)⟩

/-- C10 (implicit safety): every tile's shifted placement rectangle lies
inside the canvas computed from the same geometry, and spans exactly
`pixel_dims` pixels. -/
theorem tile_placement_in_bounds (modules : List (List GridGeometryFragment))
    (t : GridGeometryFragment) (ht : t ∈ allTiles modules) :
    ∃ size centre, get_dimensions modules = some (size, centre) ∧
      0 ≤ t.corner_idx.1 + centre.1 ∧ 0 ≤ t.corner_idx.2 + centre.2 ∧
      t.opp_corner_idx.1 + centre.1 ≤ size.1 ∧
      t.opp_corner_idx.2 + centre.2 ≤ size.2 ∧
      t.opp_corner_idx.1 - t.corner_idx.1 = (t.pixel_dims.1 : ℤ) ∧
      t.opp_corner_idx.2 - t.corner_idx.2 = (t.pixel_dims.2 : ℤ) := by
  have hne : allTiles modules ≠ [] := by
    intro hnil
    rw [hnil] at ht
    exact List.not_mem_nil _ ht
  obtain ⟨mn, mx, hmn, hmx, hdim⟩ := get_dimensions_char modules hne
  have hmnle := foldMin_le_mem _ _ hmn t.corner_idx
    (List.mem_map_of_mem _ ht)
  have hmxge := foldMax_ge_mem _ _ hmx t.opp_corner_idx
    (List.mem_map_of_mem _ ht)
  refine ⟨(mx.1 - mn.1, mx.2 - mn.2), (-mn.1, -mn.2), hdim, ?_, ?_, ?_, ?_, ?_, ?_⟩
  · have := hmnle.1; omega
  · have := hmnle.2; omega
  · have := hmxge.1; omega
  · have := hmxge.2; omega
  · simp only [GridGeometryFragment.opp_corner_idx]; omega
  · simp only [GridGeometryFragment.opp_corner_idx]; omega

/-- Witness for C10 on a one-tile geometry. -/
theorem tile_placement_in_bounds_witness :
    ((⟨(-4, 6), (-1, 0), (0, -1), 2, 3⟩ : GridGeometryFragment) ∈
      allTiles [[(⟨(-4, 6), (-1, 0), (0, -1), 2, 3⟩ : GridGeometryFragment)]]) ∧
    (∃ size centre,
      get_dimensions [[(⟨(-4, 6), (-1, 0), (0, -1), 2, 3⟩ : GridGeometryFragment)]] =
        some (size, centre) ∧
      0 ≤ (⟨(-4, 6), (-1, 0), (0, -1), 2, 3⟩ : GridGeometryFragment).corner_idx.1 + centre.1 ∧
      0 ≤ (⟨(-4, 6), (-1, 0), (0, -1), 2, 3⟩ : GridGeometryFragment).corner_idx.2 + centre.2 ∧
      (⟨(-4, 6), (-1, 0), (0, -1), 2, 3⟩ : GridGeometryFragment).opp_corner_idx.1 + centre.1 ≤ size.1 ∧
      (⟨(-4, 6), (-1, 0), (0, -1), 2, 3⟩ : GridGeometryFragment).opp_corner_idx.2 + centre.2 ≤ size.2 ∧
      (⟨(-4, 6), (-1, 0), (0, -1), 2, 3⟩ : GridGeometryFragment).opp_corner_idx.1 -
        (⟨(-4, 6), (-1, 0), (0, -1), 2, 3⟩ : GridGeometryFragment).corner_idx.1 =
        ((⟨(-4, 6), (-1, 0), (0, -1), 2, 3⟩ : GridGeometryFragment).pixel_dims.1 : ℤ) ∧
      (⟨(-4, 6), (-1, 0), (0, -1), 2, 3⟩ : GridGeometryFragment).opp_corner_idx.2 -
        (⟨(-4, 6), (-1, 0), (0, -1), 2, 3⟩ : GridGeometryFragment).corner_idx.2 =
        ((⟨(-4, 6), (-1, 0), (0, -1), 2, 3⟩ : GridGeometryFragment).pixel_dims.2 : ℤ)) :=
  ⟨by decide, tile_placement_in_bounds _ _ (by decide)⟩

/-- C3 counterexample: a fragment whose in-plane `ss_vec` is `(0.9, 0.2)`
(rounding to `(1, 0)`) with `fs_vec = (0, 1, 0)` does NOT make `snap` fail:
it succeeds and silently replaces the slow-scan vector by the rounded unit
vector. -/
theorem roundHalfEven_intCast (n : ℤ) : roundHalfEven (n : ℚ) = n := by
  rw [roundHalfEven]
  norm_num

theorem snap_silent_truncation_counterexample :
    (GeometryFragment.snap ⟨(0, 0, 0), (9/10, 1/5, 0), (0, 1, 0), 64, 128⟩).isSome = true ∧
    (GeometryFragment.snap ⟨(0, 0, 0), (9/10, 1/5, 0), (0, 1, 0), 64, 128⟩).map
        GridGeometryFragment.ss_vec = some (0, 1) := by
  have h1 : roundHalfEven (9/10) = 1 := by rw [roundHalfEven]; norm_num
  have h2 : roundHalfEven (1/5) = 0 := by rw [roundHalfEven]; norm_num
  have h0 : roundHalfEven 0 = 0 := by rw [roundHalfEven]; norm_num
  have h3 : roundHalfEven 1 = 1 := by rw [roundHalfEven]; norm_num
  simp only [GeometryFragment.snap, h1, h2, h0, h3]
  rw [if_pos (by decide)]
  constructor
  · rfl
  · rfl

/-- C3 amended: `snap` fails exactly when the set of absolute rounded
in-plane vectors differs from `{(1,0),(0,1)}`; when it succeeds it returns
precisely the rounded, axis-swapped data (so a fragment with
`ss_vec = (0.9, 0.2)` and axis-aligned `fs_vec` is silently truncated,
not rejected). -/
theorem snap_failure_characterization (f : GeometryFragment) :
    (f.snap = none ↔
      ({(|roundHalfEven f.ss_vec.1|, |roundHalfEven f.ss_vec.2.1|),
        (|roundHalfEven f.fs_vec.1|, |roundHalfEven f.fs_vec.2.1|)} :
          Finset (ℤ × ℤ)) ≠ {(1, 0), (0, 1)}) ∧
    (∀ g, f.snap = some g →
      g = ⟨(roundHalfEven f.corner_pos.2.1, roundHalfEven f.corner_pos.1),
           (roundHalfEven f.ss_vec.2.1, roundHalfEven f.ss_vec.1),
           (roundHalfEven f.fs_vec.2.1, roundHalfEven f.fs_vec.1),
           f.ss_pixels, f.fs_pixels⟩) := by
  have hsets : ({((1:ℤ), (0:ℤ)), ((0:ℤ), (1:ℤ))} : Finset (ℤ × ℤ)) =
      {(0, 1), (1, 0)} := Finset.pair_comm _ _
  simp only [GeometryFragment.snap]
  split_ifs with hcond
  · refine ⟨?_, ?_⟩
    · simp only [hsets]
      simp [hcond]
    · intro g hg
      exact (Option.some.inj hg).symm
  · refine ⟨?_, ?_⟩
    · simp only [hsets]
      simp [hcond]
    · intro g hg
      exact absurd hg (by simp)

/-- C9: fast assembly is deterministic and cache-transparent: starting from
a freshly constructed geometry, a second call on the state left by the
first call returns the identical result, and both equal assembling through
a freshly computed snapped layout. -/
theorem fast_assembly_cache_transparent
    (modules : List (List GeometryFragment)) (det : Detector) (data : NdArr ℚ) :
    (position_modules_fast
        ((position_modules_fast (DetectorGeometry.mkFresh modules det) data).2)
        data).1 =
      (position_modules_fast (DetectorGeometry.mkFresh modules det) data).1 ∧
    (position_modules_fast (DetectorGeometry.mkFresh modules det) data).1 =
      (traverseSnap modules).bind (fun s => position_modules ⟨s, det⟩ data) := by
  cases hts : traverseSnap modules with
  | none =>
    simp [position_modules_fast, DetectorGeometry.snapped, DetectorGeometry.mkFresh, hts]
  | some s =>
    simp [position_modules_fast, DetectorGeometry.snapped, DetectorGeometry.mkFresh, hts]

/-- Shared shape contract of `position_modules` (used by the fast-path
claims): failure exactly on trailing-shape mismatch, batch axes preserved. -/
theorem position_modules_shape_spec (g : SnappedGeometry) (data : NdArr ℚ)
    (h : allTiles g.modules ≠ []) :
    ((position_modules g data).isSome ↔
        trailing3 data.shape = g.det.expected_data_shape) ∧
    (∀ out c, position_modules g data = some (out, c) →
      ∃ size, get_dimensions g.modules = some (size, c) ∧
        out.shape = data.shape.take (data.shape.length - 3) ++
          [size.1.toNat, size.2.toNat]) := by
  obtain ⟨mn, mx, _hmn, _hmx, hdim⟩ := get_dimensions_char g.modules h
  constructor
  · unfold position_modules
    split_ifs with hsh
    · simp [hdim, hsh]
    · simp [hsh]
  · intro out c hpos
    unfold position_modules at hpos
    split_ifs at hpos with hsh
    · rw [hdim] at hpos
      simp only [Option.some.injEq, Prod.mk.injEq] at hpos
      obtain ⟨hout, hc⟩ := hpos
      refine ⟨(mx.1 - mn.1, mx.2 - mn.2), ?_, ?_⟩
      · rw [hdim, hc]
      · rw [← hout]

/-- C4: fast assembly fails (returning nothing) exactly when the input's
trailing three dimensions differ from the detector's declared raw shape;
on success the leading batch dimensions are preserved, followed by the
canvas shape. -/
theorem fast_assembly_shape_contract (g : SnappedGeometry) (data : NdArr ℚ)
    (h : allTiles g.modules ≠ []) :
    ((position_modules g data).isSome ↔
        trailing3 data.shape = g.det.expected_data_shape) ∧
    (∀ out c, position_modules g data = some (out, c) →
      ∃ size, get_dimensions g.modules = some (size, c) ∧
        out.shape = data.shape.take (data.shape.length - 3) ++
          [size.1.toNat, size.2.toNat]) :=
  position_modules_shape_spec g data h

/-- Witness for C4 on the one-tile sample detector. -/
theorem fast_assembly_shape_contract_witness :
    allTiles sampleSnapped.modules ≠ [] ∧
    (((position_modules sampleSnapped sampleData).isSome ↔
        trailing3 sampleData.shape = sampleSnapped.det.expected_data_shape) ∧
     (∀ out c, position_modules sampleSnapped sampleData = some (out, c) →
       ∃ size, get_dimensions sampleSnapped.modules = some (size, c) ∧
         out.shape = sampleData.shape.take (sampleData.shape.length - 3) ++
           [size.1.toNat, size.2.toNat])) :=
  ⟨by decide, fast_assembly_shape_contract sampleSnapped sampleData (by decide)⟩

theorem agipd_get_dimensions_isSome (modules : List (List GeometryFragment))
    (h : modules.flatten ≠ []) : ∃ sc, agipd_get_dimensions modules = some sc := by
  have hne : preciseCorners modules ≠ [] := by
    obtain ⟨t, ts, hts⟩ : ∃ t ts, modules.flatten = t :: ts := by
      cases hmod : modules.flatten with
      | nil => exact absurd hmod h
      | cons t ts => exact ⟨t, ts, rfl⟩
    simp [preciseCorners, hts, GeometryFragment.corners]
  cases hpc : preciseCorners modules with
  | nil => exact absurd hpc hne
  | cons p rest =>
    exact ⟨_, by unfold agipd_get_dimensions; rw [hpc]⟩

/-- C5 counterexample: an input with one leading batch axis has the correct
trailing raw shape, yet the interpolating entry point rejects it (its shape
assertion allows no batch axes), so not every assembly entry point accepts
batched input. -/
theorem interpolate_rejects_batch_counterexample :
    trailing3 [2, 16, 512, 128] = [16, 512, 128] ∧
    position_modules_interpolate qgeomZero
      ⟨[2, 16, 512, 128], fun _ => 0⟩ = none := by
  constructor
  · rfl
  · unfold position_modules_interpolate
    rw [if_neg (by decide)]

/-- C5 amended: the fast entry point accepts exactly the arrays whose
trailing three axes equal the declared raw shape, preserving leading batch
axes and returning the centre offset; the interpolating entry point instead
accepts exactly the batchless raw shape `(16, 512, 128)` and returns the 2D
canvas shape plus the centre offset. -/
theorem assembly_entry_points_amended (g : SnappedGeometry) (data : NdArr ℚ)
    (modules : List (List GeometryFragment)) (idata : NdArr ℚ)
    (hg : allTiles g.modules ≠ []) (hm : modules.flatten ≠ []) :
    ((position_modules g data).isSome ↔
        trailing3 data.shape = g.det.expected_data_shape) ∧
    (∀ out c, position_modules g data = some (out, c) →
      ∃ size, get_dimensions g.modules = some (size, c) ∧
        out.shape = data.shape.take (data.shape.length - 3) ++
          [size.1.toNat, size.2.toNat]) ∧
    ((position_modules_interpolate modules idata).isSome ↔
        idata.shape = [16, 512, 128]) ∧
    (∀ r, position_modules_interpolate modules idata = some r →
      ∃ size centre, agipd_get_dimensions modules = some (size, centre) ∧
        r = ([size.1.toNat, size.2.toNat], centre)) := by
  obtain ⟨hfast1, hfast2⟩ := position_modules_shape_spec g data hg
  obtain ⟨sc, hsc⟩ := agipd_get_dimensions_isSome modules hm
  refine ⟨hfast1, hfast2, ?_, ?_⟩
  · unfold position_modules_interpolate
    split_ifs with hsh
    · simp [hsc, hsh]
    · simp [hsh]
  · intro r hr
    unfold position_modules_interpolate at hr
    split_ifs at hr with hsh
    rw [hsc] at hr
    exact ⟨sc.1, sc.2, by rw [hsc], (Option.some.inj hr).symm⟩

/-- Witness for C5's amended statement on the sample detector (fast path)
and the all-zero-quadrant AGIPD geometry (interpolating path). -/
theorem assembly_entry_points_amended_witness :
    (allTiles sampleSnapped.modules ≠ [] ∧ qgeomZero.flatten ≠ []) ∧
    (((position_modules sampleSnapped sampleData).isSome ↔
        trailing3 sampleData.shape = sampleSnapped.det.expected_data_shape) ∧
     (∀ out c, position_modules sampleSnapped sampleData = some (out, c) →
       ∃ size, get_dimensions sampleSnapped.modules = some (size, c) ∧
         out.shape = sampleData.shape.take (sampleData.shape.length - 3) ++
           [size.1.toNat, size.2.toNat]) ∧
     ((position_modules_interpolate qgeomZero
          ⟨[16, 512, 128], fun _ => 0⟩).isSome ↔
        (⟨[16, 512, 128], fun _ => 0⟩ : NdArr ℚ).shape = [16, 512, 128]) ∧
     (∀ r, position_modules_interpolate qgeomZero
          ⟨[16, 512, 128], fun _ => 0⟩ = some r →
       ∃ size centre, agipd_get_dimensions qgeomZero = some (size, centre) ∧
         r = ([size.1.toNat, size.2.toNat], centre))) :=
  ⟨⟨by decide, by decide⟩,
   assembly_entry_points_amended sampleSnapped sampleData qgeomZero
     ⟨[16, 512, 128], fun _ => 0⟩ (by decide) (by decide)⟩

theorem tileAt_from_quad0 (quad_pos : ℕ → ℚ × ℚ) (ag pg : ℚ) (a : ℕ) (ha : a < 8) :
    ∃ t, tileAt (from_quad_positions quad_pos ag pg) 0 a = some t ∧
      t.corner_pos = ((quad_pos 0).1 + (64 + ag) * a, (quad_pos 0).2, 0) ∧
      t.ss_vec = (1, 0, 0) ∧ t.fs_vec = (0, -1, 0) ∧
      t.ss_pixels = 64 ∧ t.fs_pixels = 128 := by
  interval_cases a <;>
    refine ⟨_, rfl, ?_, ?_, ?_, rfl, rfl⟩ <;>
      norm_num [quadsXOrient, quadsYOrient]

/-- C6 counterexample: in the idealized AGIPD layout (zero quadrant
positions, `asic_gap = 2`, `panel_gap = 29`), module 0 tile 1's corner is
offset from tile 0's corner by `(66, 0, 0)`, which is not
`1 * (64 + 2)` times the module's fast-scan vector `(0, -1, 0)` (for either
sign): the tiles step along the slow-scan axis, not the fast-scan axis. -/
theorem from_quad_positions_fs_axis_counterexample :
    (tileAt (from_quad_positions (fun _ => ((0 : ℚ), (0 : ℚ))) 2 29) 0 0).map
        GeometryFragment.corner_pos = some (0, 0, 0) ∧
    (tileAt (from_quad_positions (fun _ => ((0 : ℚ), (0 : ℚ))) 2 29) 0 1).map
        GeometryFragment.corner_pos = some (66, 0, 0) ∧
    (tileAt (from_quad_positions (fun _ => ((0 : ℚ), (0 : ℚ))) 2 29) 0 0).map
        GeometryFragment.fs_vec = some (0, -1, 0) ∧
    sub3 (66, 0, 0) (0, 0, 0) ≠ smul3 ((1 : ℚ) * (64 + 2)) (0, -1, 0) ∧
    sub3 (66, 0, 0) (0, 0, 0) ≠ smul3 (-((1 : ℚ) * (64 + 2))) (0, -1, 0) := by
  obtain ⟨t0, h0, hc0, hs0, hf0, _, _⟩ :=
    tileAt_from_quad0 (fun _ => (0, 0)) 2 29 0 (by norm_num)
  obtain ⟨t1, h1, hc1, _, _, _, _⟩ :=
    tileAt_from_quad0 (fun _ => (0, 0)) 2 29 1 (by norm_num)
  refine ⟨?_, ?_, ?_, ?_, ?_⟩
  · rw [h0]
    simp only [Option.map_some']
    rw [hc0]
    norm_num
  · rw [h1]
    simp only [Option.map_some']
    rw [hc1]
    norm_num
  · rw [h0]
    simp only [Option.map_some']
    rw [hf0]
  · simp only [sub3, smul3, Prod.ext_iff]
    norm_num
  · simp only [sub3, smul3, Prod.ext_iff]
    norm_num

/-- C6 amended: for every choice of quadrant reference positions, the
idealized AGIPD layout with `asic_gap = 2`, `panel_gap = 29` places module
0 tile 0's corner exactly at the first quadrant position, and tile `a`'s
corner is offset from tile 0's corner by `a * (64 + asic_gap)` along the
module's slow-scan axis (`ss_vec`), not the fast-scan axis. -/
theorem from_quad_positions_tile_layout (quad_pos : ℕ → ℚ × ℚ) (a : ℕ)
    (ha : a < 8) :
    ∃ t0 ta,
      tileAt (from_quad_positions quad_pos 2 29) 0 0 = some t0 ∧
      tileAt (from_quad_positions quad_pos 2 29) 0 a = some ta ∧
      t0.corner_pos = ((quad_pos 0).1, (quad_pos 0).2, 0) ∧
      sub3 ta.corner_pos t0.corner_pos =
        smul3 ((a : ℚ) * (64 + 2)) t0.ss_vec := by
  obtain ⟨t0, h0, hc0, hs0, _, _, _⟩ :=
    tileAt_from_quad0 quad_pos 2 29 0 (by norm_num)
  obtain ⟨ta, hA, hcA, _, _, _, _⟩ := tileAt_from_quad0 quad_pos 2 29 a ha
  refine ⟨t0, ta, h0, hA, ?_, ?_⟩
  · rw [hc0]
    norm_num
  · rw [hcA, hc0, hs0]
    simp only [sub3, smul3, Prod.ext_iff]
    refine ⟨by ring, by ring, by ring⟩

/-- Witness for C6's amended statement at zero quadrant positions, `a = 1`. -/
theorem from_quad_positions_tile_layout_witness :
    1 < 8 ∧
    (∃ t0 ta,
      tileAt (from_quad_positions (fun _ => ((0 : ℚ), (0 : ℚ))) 2 29) 0 0 = some t0 ∧
      tileAt (from_quad_positions (fun _ => ((0 : ℚ), (0 : ℚ))) 2 29) 0 1 = some ta ∧
      t0.corner_pos = (((fun _ => ((0 : ℚ), (0 : ℚ))) 0).1,
                       ((fun _ => ((0 : ℚ), (0 : ℚ))) 0).2, 0) ∧
      sub3 ta.corner_pos t0.corner_pos =
        smul3 (((1 : ℕ) : ℚ) * (64 + 2)) t0.ss_vec) :=
  ⟨by norm_num, from_quad_positions_tile_layout (fun _ => (0, 0)) 1 (by norm_num)⟩

/-- C7: for the single-tile geometry with `ss_vec = (1,0,0)`,
`fs_vec = (0,1,0)`, `corner_pos = (0,0,0)` and pixel size 1, the distortion
builder computes pixel (0,0)'s four corner `(x, y)` coordinates, before the
global min-shift, as `(-1/2,-1/2), (1/2,-1/2), (1/2,1/2), (-1/2,1/2)`
(corner indexes 0-3), i.e. exactly the claimed set. -/
theorem distortion_builder_pixel00_corners :
    ((distortion_before_shift singleTileGeom 1 0 0 0).2.2,
     (distortion_before_shift singleTileGeom 1 0 0 0).2.1) = (-(1/2), -(1/2)) ∧
    ((distortion_before_shift singleTileGeom 1 0 0 1).2.2,
     (distortion_before_shift singleTileGeom 1 0 0 1).2.1) = (1/2, -(1/2)) ∧
    ((distortion_before_shift singleTileGeom 1 0 0 2).2.2,
     (distortion_before_shift singleTileGeom 1 0 0 2).2.1) = (1/2, 1/2) ∧
    ((distortion_before_shift singleTileGeom 1 0 0 3).2.2,
     (distortion_before_shift singleTileGeom 1 0 0 3).2.1) = (-(1/2), 1/2) := by
  refine ⟨?_, ?_, ?_, ?_⟩ <;>
    norm_num [distortion_before_shift, singleTileGeom, tilePixelCorner, smul3,
      cornerSSOffsets, cornerFSOffsets]

theorem roundHalfEven_zero : roundHalfEven 0 = 0 := by
  rw [roundHalfEven]; norm_num

theorem int_min_one_zero : ((1 : ℤ) ⊓ 0) = 0 := by decide

theorem int_min_negOne_zero : ((-1 : ℤ) ⊓ 0) = -1 := by decide

set_option maxHeartbeats 2000000 in
/-- C8 amended: for every fragment whose in-plane `ss_vec`/`fs_vec`
components are exact integers (equal to their rounded values) and on which
snapping succeeds, the snapped placement rectangle differs from the
unsnapped corner polygon's bounding rectangle by at most one pixel per
axis (the only discrepancy is the rounding of `corner_pos`). -/
theorem snap_bbox_within_one_pixel (f : GeometryFragment) (g : GridGeometryFragment)
    (hint : (roundHalfEven f.ss_vec.1 : ℚ) = f.ss_vec.1 ∧
            (roundHalfEven f.ss_vec.2.1 : ℚ) = f.ss_vec.2.1 ∧
            (roundHalfEven f.fs_vec.1 : ℚ) = f.fs_vec.1 ∧
            (roundHalfEven f.fs_vec.2.1 : ℚ) = f.fs_vec.2.1)
    (hs : f.snap = some g) :
    |(g.corner_idx.1 : ℚ) - (polyBBox f).1.2| ≤ 1 ∧
    |(g.corner_idx.2 : ℚ) - (polyBBox f).1.1| ≤ 1 ∧
    |(g.opp_corner_idx.1 : ℚ) - (polyBBox f).2.2| ≤ 1 ∧
    |(g.opp_corner_idx.2 : ℚ) - (polyBBox f).2.1| ≤ 1 := by
  obtain ⟨⟨px, py, pz⟩, ⟨sx, sy, sz⟩, ⟨fx, fy, fz⟩, sp, fp⟩ := f
  obtain ⟨hsx, hsy, hfx, hfy⟩ := hint
  dsimp only at hsx hsy hfx hfy
  simp only [GeometryFragment.snap] at hs
  split_ifs at hs with hcond
  obtain rfl := Option.some.inj hs
  rw [pair_finset_eq_axis_iff] at hcond
  have hbpy := roundHalfEven_sub_le py
  have hbpx := roundHalfEven_sub_le px
  have hsp : (0:ℚ) ≤ (sp:ℚ) := Nat.cast_nonneg sp
  have hfp : (0:ℚ) ≤ (fp:ℚ) := Nat.cast_nonneg fp
  rcases hcond with ⟨hA, hB⟩ | ⟨hA, hB⟩ <;> rw [Prod.mk.injEq] at hA hB
  · have hsx0 : roundHalfEven sx = 0 := abs_eq_zero.mp hA.1
    have hfy0 : roundHalfEven fy = 0 := abs_eq_zero.mp hB.2
    have hsx' : sx = ((0:ℤ):ℚ) := by rw [← hsx, hsx0]
    have hfy' : fy = ((0:ℤ):ℚ) := by rw [← hfy, hfy0]
    rcases (abs_eq (by norm_num : (0:ℤ) ≤ 1)).mp hA.2 with hsyv | hsyv <;>
      rcases (abs_eq (by norm_num : (0:ℤ) ≤ 1)).mp hB.1 with hfxv | hfxv
    · have hV1 : sy = ((1:ℤ):ℚ) := by rw [← hsy, hsyv]
      have hV2 : fx = ((1:ℤ):ℚ) := by rw [← hfx, hfxv]
      refine ⟨?_, ?_, ?_, ?_⟩ <;>
      simp only [GridGeometryFragment.corner_idx, GridGeometryFragment.corner_shift,
        GridGeometryFragment.opp_corner_idx, GridGeometryFragment.pixel_dims,
        polyBBox, GeometryFragment.corners, add3, smul3, qmin, qmax,
        List.map_cons, List.map_nil, List.foldl_cons, List.foldl_nil] <;>
      simp only [hsx0, hfy0, hsyv, hfxv, int_min_one_zero, int_min_negOne_zero] <;>
      (try simp only [hsx', hfy', hV1, hV2]) <;>
      norm_num <;>
      rw [abs_le] <;>
      constructor <;>
      linarith [hbpy.1, hbpy.2, hbpx.1, hbpx.2, hsp, hfp]
    · have hV1 : sy = ((1:ℤ):ℚ) := by rw [← hsy, hsyv]
      have hV2 : fx = ((-1:ℤ):ℚ) := by rw [← hfx, hfxv]
      refine ⟨?_, ?_, ?_, ?_⟩ <;>
      simp only [GridGeometryFragment.corner_idx, GridGeometryFragment.corner_shift,
        GridGeometryFragment.opp_corner_idx, GridGeometryFragment.pixel_dims,
        polyBBox, GeometryFragment.corners, add3, smul3, qmin, qmax,
        List.map_cons, List.map_nil, List.foldl_cons, List.foldl_nil] <;>
      simp only [hsx0, hfy0, hsyv, hfxv, int_min_one_zero, int_min_negOne_zero] <;>
      (try simp only [hsx', hfy', hV1, hV2]) <;>
      norm_num <;>
      rw [abs_le] <;>
      constructor <;>
      linarith [hbpy.1, hbpy.2, hbpx.1, hbpx.2, hsp, hfp]
    · have hV1 : sy = ((-1:ℤ):ℚ) := by rw [← hsy, hsyv]
      have hV2 : fx = ((1:ℤ):ℚ) := by rw [← hfx, hfxv]
      refine ⟨?_, ?_, ?_, ?_⟩ <;>
      simp only [GridGeometryFragment.corner_idx, GridGeometryFragment.corner_shift,
        GridGeometryFragment.opp_corner_idx, GridGeometryFragment.pixel_dims,
        polyBBox, GeometryFragment.corners, add3, smul3, qmin, qmax,
        List.map_cons, List.map_nil, List.foldl_cons, List.foldl_nil] <;>
      simp only [hsx0, hfy0, hsyv, hfxv, int_min_one_zero, int_min_negOne_zero] <;>
      (try simp only [hsx', hfy', hV1, hV2]) <;>
      norm_num <;>
      rw [abs_le] <;>
      constructor <;>
      linarith [hbpy.1, hbpy.2, hbpx.1, hbpx.2, hsp, hfp]
    · have hV1 : sy = ((-1:ℤ):ℚ) := by rw [← hsy, hsyv]
      have hV2 : fx = ((-1:ℤ):ℚ) := by rw [← hfx, hfxv]
      refine ⟨?_, ?_, ?_, ?_⟩ <;>
      simp only [GridGeometryFragment.corner_idx, GridGeometryFragment.corner_shift,
        GridGeometryFragment.opp_corner_idx, GridGeometryFragment.pixel_dims,
        polyBBox, GeometryFragment.corners, add3, smul3, qmin, qmax,
        List.map_cons, List.map_nil, List.foldl_cons, List.foldl_nil] <;>
      simp only [hsx0, hfy0, hsyv, hfxv, int_min_one_zero, int_min_negOne_zero] <;>
      (try simp only [hsx', hfy', hV1, hV2]) <;>
      norm_num <;>
      rw [abs_le] <;>
      constructor <;>
      linarith [hbpy.1, hbpy.2, hbpx.1, hbpx.2, hsp, hfp]
  · have hsy0 : roundHalfEven sy = 0 := abs_eq_zero.mp hA.2
    have hfx0 : roundHalfEven fx = 0 := abs_eq_zero.mp hB.1
    have hsy' : sy = ((0:ℤ):ℚ) := by rw [← hsy, hsy0]
    have hfx' : fx = ((0:ℤ):ℚ) := by rw [← hfx, hfx0]
    rcases (abs_eq (by norm_num : (0:ℤ) ≤ 1)).mp hA.1 with hsxv | hsxv <;>
      rcases (abs_eq (by norm_num : (0:ℤ) ≤ 1)).mp hB.2 with hfyv | hfyv
    · have hV1 : sx = ((1:ℤ):ℚ) := by rw [← hsx, hsxv]
      have hV2 : fy = ((1:ℤ):ℚ) := by rw [← hfy, hfyv]
      refine ⟨?_, ?_, ?_, ?_⟩ <;>
      simp only [GridGeometryFragment.corner_idx, GridGeometryFragment.corner_shift,
        GridGeometryFragment.opp_corner_idx, GridGeometryFragment.pixel_dims,
        polyBBox, GeometryFragment.corners, add3, smul3, qmin, qmax,
        List.map_cons, List.map_nil, List.foldl_cons, List.foldl_nil] <;>
      simp only [hsy0, hfx0, hsxv, hfyv, int_min_one_zero, int_min_negOne_zero] <;>
      (try simp only [hsy', hfx', hV1, hV2]) <;>
      norm_num <;>
      rw [abs_le] <;>
      constructor <;>
      linarith [hbpy.1, hbpy.2, hbpx.1, hbpx.2, hsp, hfp]
    · have hV1 : sx = ((1:ℤ):ℚ) := by rw [← hsx, hsxv]
      have hV2 : fy = ((-1:ℤ):ℚ) := by rw [← hfy, hfyv]
      refine ⟨?_, ?_, ?_, ?_⟩ <;>
      simp only [GridGeometryFragment.corner_idx, GridGeometryFragment.corner_shift,
        GridGeometryFragment.opp_corner_idx, GridGeometryFragment.pixel_dims,
        polyBBox, GeometryFragment.corners, add3, smul3, qmin, qmax,
        List.map_cons, List.map_nil, List.foldl_cons, List.foldl_nil] <;>
      simp only [hsy0, hfx0, hsxv, hfyv, int_min_one_zero, int_min_negOne_zero] <;>
      (try simp only [hsy', hfx', hV1, hV2]) <;>
      norm_num <;>
      rw [abs_le] <;>
      constructor <;>
      linarith [hbpy.1, hbpy.2, hbpx.1, hbpx.2, hsp, hfp]
    · have hV1 : sx = ((-1:ℤ):ℚ) := by rw [← hsx, hsxv]
      have hV2 : fy = ((1:ℤ):ℚ) := by rw [← hfy, hfyv]
      refine ⟨?_, ?_, ?_, ?_⟩ <;>
      simp only [GridGeometryFragment.corner_idx, GridGeometryFragment.corner_shift,
        GridGeometryFragment.opp_corner_idx, GridGeometryFragment.pixel_dims,
        polyBBox, GeometryFragment.corners, add3, smul3, qmin, qmax,
        List.map_cons, List.map_nil, List.foldl_cons, List.foldl_nil] <;>
      simp only [hsy0, hfx0, hsxv, hfyv, int_min_one_zero, int_min_negOne_zero] <;>
      (try simp only [hsy', hfx', hV1, hV2]) <;>
      norm_num <;>
      rw [abs_le] <;>
      constructor <;>
      linarith [hbpy.1, hbpy.2, hbpx.1, hbpx.2, hsp, hfp]
    · have hV1 : sx = ((-1:ℤ):ℚ) := by rw [← hsx, hsxv]
      have hV2 : fy = ((-1:ℤ):ℚ) := by rw [← hfy, hfyv]
      refine ⟨?_, ?_, ?_, ?_⟩ <;>
      simp only [GridGeometryFragment.corner_idx, GridGeometryFragment.corner_shift,
        GridGeometryFragment.opp_corner_idx, GridGeometryFragment.pixel_dims,
        polyBBox, GeometryFragment.corners, add3, smul3, qmin, qmax,
        List.map_cons, List.map_nil, List.foldl_cons, List.foldl_nil] <;>
      simp only [hsy0, hfx0, hsxv, hfyv, int_min_one_zero, int_min_negOne_zero] <;>
      (try simp only [hsy', hfx', hV1, hV2]) <;>
      norm_num <;>
      rw [abs_le] <;>
      constructor <;>
      linarith [hbpy.1, hbpy.2, hbpx.1, hbpx.2, hsp, hfp]

/-- C8 counterexample: the unit-vector fragment `bboxFrag` with
`ss_vec = (0, -3/5, 4/5)` snaps successfully (its rounded in-plane vectors
are `(0,-1)` and `(1,0)`), yet the snapped placement's minimum row `-64`
differs from the unsnapped polygon's minimum y `-192/5` by `128/5 > 1`
pixels, so the one-pixel bound fails on a fragment where snapping
succeeds. -/
theorem snap_bbox_counterexample :
    bboxFrag.snap = some bboxFragSnapped ∧
    (polyBBox bboxFrag).1.2 = -192/5 ∧
    bboxFragSnapped.corner_idx.1 = -64 ∧
    ¬(|((-64 : ℤ) : ℚ) - (-192/5)| ≤ 1) := by
  have h2 : roundHalfEven (-3/5) = -1 := by rw [roundHalfEven]; norm_num
  have h3 : roundHalfEven 1 = 1 := by rw [roundHalfEven]; norm_num
  refine ⟨?_, ?_, ?_, ?_⟩
  · simp only [GeometryFragment.snap, bboxFrag, roundHalfEven_zero, h2, h3]
    rw [if_pos (by decide)]
    rfl
  · norm_num [polyBBox, bboxFrag, GeometryFragment.corners, add3, smul3,
      qmin, qmax]
  · decide
  · intro h
    rw [abs_le] at h
    have h1 := h.1
    push_cast at h1
    linarith

/-- Witness for C8's amended statement at the exactly axis-aligned fragment
`sampleFragQ` (corner `(1/4, -1/3)`). -/
theorem snap_bbox_within_one_pixel_witness :
    (((roundHalfEven sampleFragQ.ss_vec.1 : ℚ) = sampleFragQ.ss_vec.1 ∧
      (roundHalfEven sampleFragQ.ss_vec.2.1 : ℚ) = sampleFragQ.ss_vec.2.1 ∧
      (roundHalfEven sampleFragQ.fs_vec.1 : ℚ) = sampleFragQ.fs_vec.1 ∧
      (roundHalfEven sampleFragQ.fs_vec.2.1 : ℚ) = sampleFragQ.fs_vec.2.1) ∧
     sampleFragQ.snap = some sampleFragSnapped) ∧
    (|(sampleFragSnapped.corner_idx.1 : ℚ) - (polyBBox sampleFragQ).1.2| ≤ 1 ∧
     |(sampleFragSnapped.corner_idx.2 : ℚ) - (polyBBox sampleFragQ).1.1| ≤ 1 ∧
     |(sampleFragSnapped.opp_corner_idx.1 : ℚ) - (polyBBox sampleFragQ).2.2| ≤ 1 ∧
     |(sampleFragSnapped.opp_corner_idx.2 : ℚ) - (polyBBox sampleFragQ).2.1| ≤ 1) := by
  have h3 : roundHalfEven 1 = 1 := by rw [roundHalfEven]; norm_num
  have hq : roundHalfEven (1/4) = 0 := by rw [roundHalfEven]; norm_num
  have hm : roundHalfEven (-1/3) = 0 := by rw [roundHalfEven]; norm_num
  have hint : (roundHalfEven sampleFragQ.ss_vec.1 : ℚ) = sampleFragQ.ss_vec.1 ∧
      (roundHalfEven sampleFragQ.ss_vec.2.1 : ℚ) = sampleFragQ.ss_vec.2.1 ∧
      (roundHalfEven sampleFragQ.fs_vec.1 : ℚ) = sampleFragQ.fs_vec.1 ∧
      (roundHalfEven sampleFragQ.fs_vec.2.1 : ℚ) = sampleFragQ.fs_vec.2.1 := by
    refine ⟨?_, ?_, ?_, ?_⟩ <;>
      simp only [sampleFragQ, roundHalfEven_zero, h3] <;> norm_num
  have hsnap : sampleFragQ.snap = some sampleFragSnapped := by
    simp only [GeometryFragment.snap, sampleFragQ, roundHalfEven_zero, h3, hq, hm]
    rw [if_pos (by decide)]
    rfl
  exact ⟨⟨hint, hsnap⟩,
    snap_bbox_within_one_pixel sampleFragQ sampleFragSnapped hint hsnap⟩
